import Mathlib

set_option maxRecDepth 8000

/-!
Verification of the property-photo consistency and caching subsystem
(property service, property routes, reconciliation handler, and the
`create_property_with_photos` store procedure).

Source files embedded:
- `src/unnamed/part_002` — property service (`validateImageUrls`,
  `getProperties`, `getPropertyById`, `createProperty`, `updateProperty`,
  `deleteProperty`, `recordPropertyView`);
- `src/unnamed/part_001` — property routes, including the
  `reconcile-photos` handler;
- `src/migrations/0002_create_property_with_photos.sql` — the atomic
  store procedure.

Collaborator modules that are not part of the given sources (the TTL
cache module, the property repository, the ownership cache of the auth
middleware, and the Zod `insertPropertySchema`) are modelled from the
spec; each such definition carries a doc comment saying so.

Store interactions are shallowly embedded: the database is an explicit
record of property and photo rows; fallible store calls are driven by
explicit oracle records describing each call's outcome (success, an
error returned as a value — the supabase style — or a thrown
rejection); every operation returns its result together with the new
state and a trace of the store/cache effects it performed.
-/

namespace Newstack

/-- A JSON value standing in an image list: either a string or some
non-string value (the service checks `typeof img !== "string"`). -/
inductive ImgVal where
  | str (s : String)
  | nonStr
deriving DecidableEq

/-- A property row (the columns the embedded operations read or write). -/
structure Property where
  id : Nat
  owner_id : String
  title : String
  address : String
  city : String
  price : String
  images : List String
  view_count : Nat
deriving DecidableEq

/-- A photo row.  `metadata.source` is kept as the `source` field. -/
structure Photo where
  id : Nat
  imagekit_file_id : String
  url : String
  thumbnail_url : String
  category : String
  uploader_id : Option String
  property_id : Option Nat
  source : String
deriving DecidableEq

/-- The store state: property rows, photo rows, and the next fresh ids. -/
structure DB where
  properties : List Property
  photos : List Photo
  nextPropertyId : Nat
  nextPhotoId : Nat
deriving DecidableEq

/-- Well-formedness of a store state: row ids are below the fresh-id
counters, ids are pairwise distinct, and photo rows only reference
already-allocated property ids. -/
def DB.WF (db : DB) : Prop :=
  (∀ p ∈ db.properties, p.id < db.nextPropertyId) ∧
  (∀ q ∈ db.photos, q.id < db.nextPhotoId) ∧
  (db.properties.map Property.id).Nodup ∧
  (db.photos.map Photo.id).Nodup ∧
  (∀ q ∈ db.photos, ∀ pid, q.property_id = some pid → pid < db.nextPropertyId)

instance (db : DB) : Decidable db.WF := by
  unfold DB.WF
  infer_instance

/-- Pagination block of a listing result. -/
structure Pagination where
  page : Nat
  limit : Nat
  total : Nat
  totalPages : Nat
  hasNextPage : Bool
  hasPrevPage : Bool
deriving DecidableEq

/-- Result of `getProperties`. -/
structure GetPropertiesResult where
  properties : List Property
  pagination : Pagination
deriving DecidableEq

/-- Values held by the shared cache: listing results and single
property records. -/
inductive CacheVal where
  | listing (r : GetPropertiesResult)
  | detail (p : Property)
deriving DecidableEq

/-- Modelled from the spec: the TTL cache module (`cache.ts`, imported
by the service but not among the given sources).  Spec 4.1: a generic
in-memory key/value store; an entry carries its expiry instant. -/
structure Cache where
  entries : List (String × CacheVal × Nat)
deriving DecidableEq

/-- Modelled from the spec: `cache.get(key)` returns the value if
present and unexpired; a stale entry behaves as a miss and is lazily
evicted.  Time is an explicit `now` parameter. -/
def Cache.get (c : Cache) (key : String) (now : Nat) : Option CacheVal × Cache :=
  match c.entries.find? (fun e => e.1 == key) with
  | none => (none, c)
  | some e =>
    if now ≤ e.2.2 then (some e.2.1, c)
    else (none, ⟨c.entries.filter (fun e => ¬ e.1 == key)⟩)

/-- Modelled from the spec: `cache.set(key, value, ttl)` stores the
value with expiry `now + ttl`, replacing any previous entry for the
key. -/
def Cache.set (c : Cache) (key : String) (v : CacheVal) (ttl now : Nat) : Cache :=
  ⟨(key, v, now + ttl) :: c.entries.filter (fun e => ¬ e.1 == key)⟩

/-- `String.startsWith`, computed on the underlying character lists so
that it evaluates by kernel reduction. -/
def strStartsWith (s p : String) : Bool := p.data.isPrefixOf s.data

/-- Modelled from the spec: `cache.invalidate(target)` removes every
entry whose key equals `target` or starts with `target`. -/
def Cache.invalidate (c : Cache) (target : String) : Cache :=
  ⟨c.entries.filter (fun e => ¬ (e.1 == target || strStartsWith e.1 target))⟩

/-- Modelled from the spec: the externally-owned ownership-authorization
cache (auth middleware, not among the given sources), as the set of its
(resource type, id) keys. -/
def invalidateOwnershipCache (oc : List (String × Nat)) (rtype : String) (id : Nat) :
    List (String × Nat) :=
  oc.filter (fun e => ¬ (e.1 == rtype && e.2 == id))

/-- Modelled from the spec: the listing-cache TTL constant
(`CACHE_TTL.PROPERTIES_LIST`, cache module not among the given
sources).  No claim depends on the concrete value. -/
def PROPERTIES_LIST_TTL : Nat := 300

/-- Modelled from the spec: the detail-cache TTL constant
(`CACHE_TTL.PROPERTY_DETAIL`). -/
def PROPERTY_DETAIL_TTL : Nat := 600

/-- Decimal digit characters of a natural number, least significant
last: the embedding of the JavaScript number-to-string conversion that
`Array.prototype.join` applies to `page` and `limit`.  Structural
recursion on an explicit fuel (any fuel above the number suffices, and
`natStr` supplies one) keeps the definition kernel-reducible. -/
def natChars : Nat → Nat → List Char
  | 0, _ => []
  | fuel + 1, n =>
    if n < 10 then [Nat.digitChar n]
    else natChars fuel (n / 10) ++ [Nat.digitChar (n % 10)]

/-- Decimal string of a natural number. -/
def natStr (n : Nat) : String := String.mk (natChars (n + 1) n)

/-- Base-10 value of a digit-character list (left inverse of
`natChars`). -/
def charsVal (l : List Char) : Nat :=
  l.foldl (fun acc c => acc * 10 + (c.toNat - 48)) 0

/-- JavaScript `Number(x) || d` on an integer-valued input: `none`
models `NaN` (undefined or a non-numeric string), and `0` is falsy, so
both fall back to the default. -/
def jsOr (n : Option Int) (d : Int) : Int :=
  match n with
  | none => d
  | some v => if v = 0 then d else v

/-- `Math.max(1, Number(params.page) || 1)` from `getProperties`. -/
def clampPage (p : Option Int) : Nat := (max 1 (jsOr p 1)).toNat

/-- `Math.min(100, Math.max(1, Number(params.limit) || 20))` from
`getProperties`. -/
def clampLimit (l : Option Int) : Nat := (min 100 (max 1 (jsOr l 20))).toNat

/-- Query parameters of `getProperties`.  The numeric fields hold the
value `Number()` produced (`none` for `NaN`). -/
structure GetPropertiesParams where
  propertyType : Option String
  city : Option String
  minPrice : Option String
  maxPrice : Option String
  status : Option String
  ownerId : Option String
  page : Option Int
  limit : Option Int
deriving DecidableEq

/-- JavaScript `Array.prototype.join(":")`. -/
def joinKey : List String → String
  | [] => ""
  | [s] => s
  | s :: rest => s ++ ":" ++ joinKey rest

/-- The components of the `getProperties` cache key, in source order. -/
def cacheKeyParts (params : GetPropertiesParams) : List String :=
  ["properties",
   params.propertyType.getD "",
   params.city.getD "",
   params.minPrice.getD "",
   params.maxPrice.getD "",
   params.status.getD "active",
   params.ownerId.getD "",
   natStr (clampPage params.page),
   natStr (clampLimit params.limit)]

/-- The `getProperties` cache key (`[...].join(":")`). -/
def listCacheKey (params : GetPropertiesParams) : String :=
  joinKey (cacheKeyParts params)

/-- The filter tuple of a `getProperties` call: every filter dimension
as it enters the cache key (status defaulted to `"active"`), plus the
clamped page and limit. -/
def filterTuple (params : GetPropertiesParams) :
    String × String × String × String × String × String × Nat × Nat :=
  (params.propertyType.getD "", params.city.getD "", params.minPrice.getD "",
   params.maxPrice.getD "", params.status.getD "active", params.ownerId.getD "",
   clampPage params.page, clampLimit params.limit)

/-- Store and cache effects recorded by the embedded operations. -/
inductive Op where
  | rpcCreate
  | findById (id : Nat)
  | findAll
  | storeUpdate (id : Nat)
  | storeDelete (id : Nat)
  | storeIncrement (id : Nat)
  | photoSelect (url : String)
  | photoUpdate (photoId : Nat)
  | photoInsert (count : Nat)
  | cacheInvalidate (key : String)
  | ownershipInvalidate (rtype : String) (id : Nat)
deriving DecidableEq

/-- Whether an effect is one of the three kinds of invalidation. -/
def Op.isInvalidation : Op → Bool
  | .cacheInvalidate _ => true
  | .ownershipInvalidate _ _ => true
  | _ => false

/-- Modelled from the spec: `propertyRepository.findAllProperties`
(property repository, not among the given sources) returns a page of
rows together with the total row count; the embedding passes that pair
in as the `store` argument. -/
def getProperties (params : GetPropertiesParams) (c : Cache) (now : Nat)
    (store : List Property × Nat) : GetPropertiesResult × Cache × List Op :=
  let page := clampPage params.page
  let limit := clampLimit params.limit
  let key := listCacheKey params
  match c.get key now with
  | (some (.listing r), c1) => (r, c1, [])
  | (some (.detail _), c1) =>
    -- unreachable given key discipline (detail keys and listing keys
    -- are disjoint); treated as a miss
    let totalPages := (store.2 + limit - 1) / limit
    let result : GetPropertiesResult :=
      ⟨store.1, ⟨page, limit, store.2, totalPages,
        decide (page < totalPages), decide (1 < page)⟩⟩
    (result, c1.set key (.listing result) PROPERTIES_LIST_TTL now, [.findAll])
  | (none, c1) =>
    let totalPages := (store.2 + limit - 1) / limit
    let result : GetPropertiesResult :=
      ⟨store.1, ⟨page, limit, store.2, totalPages,
        decide (page < totalPages), decide (1 < page)⟩⟩
    (result, c1.set key (.listing result) PROPERTIES_LIST_TTL now, [.findAll])

/-- Modelled from the spec: `propertyRepository.findPropertyById`
(property repository, not among the given sources): the store read of a
single property row. -/
def findPropertyById (db : DB) (id : Nat) : Option Property :=
  db.properties.find? (fun p => p.id == id)

/-- The single-entry cache key `property:<id>`. -/
def propertyKey (id : Nat) : String := "property:" ++ natStr id

/-- `getPropertyById` from the property service: cache-through read.
A cached value of listing shape is treated as a miss (unreachable:
detail keys never hold listing values). -/
def getPropertyById (id : Nat) (db : DB) (c : Cache) (now : Nat) :
    Option Property × Cache × List Op :=
  match c.get (propertyKey id) now with
  | (some (.detail p), c1) => (some p, c1, [])
  | (some (.listing _), c1) =>
    match findPropertyById db id with
    | none => (none, c1, [.findById id])
    | some p =>
      (some p, c1.set (propertyKey id) (.detail p) PROPERTY_DETAIL_TTL now, [.findById id])
  | (none, c1) =>
    match findPropertyById db id with
    | none => (none, c1, [.findById id])
    | some p =>
      (some p, c1.set (propertyKey id) (.detail p) PROPERTY_DETAIL_TTL now, [.findById id])

/-- Per-entry check of `validateImageUrls` (`src/unnamed/part_002`
lines 50-60): non-strings, `data:` URIs and non-http(s) entries are
rejected, in that order. -/
def imgEntryError (img : ImgVal) : Option String :=
  match img with
  | .nonStr => some "Images must be strings (ImageKit URLs)"
  | .str s =>
    if strStartsWith s "data:" then
      some "Base64 images are not allowed. Upload to ImageKit first."
    else if ¬ (strStartsWith s "http://" || strStartsWith s "https://") then
      some "Images must be valid URLs"
    else none

/-- `validateImageUrls` (`src/unnamed/part_002` lines 43-61): a
non-array passes; more than 25 entries fail; otherwise the first
failing entry's message is raised.  The thrown message is returned as
an `Option`. -/
def validateImageUrls (images : Option (List ImgVal)) : Option String :=
  match images with
  | none => none
  | some imgs =>
    if imgs.length > 25 then some "Maximum 25 images per property"
    else imgs.findSome? imgEntryError

/-- A `createProperty` request body (the fields the embedded schema
checks plus the image list). -/
structure CreateBody where
  title : Option String
  address : Option String
  city : Option String
  price : Option String
  images : Option (List ImgVal)
deriving DecidableEq

/-- The validated property fields produced by a successful parse. -/
structure ParsedProperty where
  title : String
  address : String
  city : String
  price : String
  images : List String
deriving DecidableEq

/-- Modelled from the spec: `insertPropertySchema.safeParse` (Zod
schema from `@shared/schema`, not among the given sources).  Per the
spec, required descriptive fields must be present and the image list
must satisfy the image-URL contract (at most 25 entries, every entry a
string, no `data:` URIs, absolute http/https only); the checks are the
ones of the dead in-source helper `validateImageUrls`, which the
schema's comment says it reproduces. -/
def safeParse (b : CreateBody) : Except String ParsedProperty :=
  match b.title, b.address, b.city, b.price with
  | some t, some a, some c, some p =>
    match validateImageUrls b.images with
    | some e => .error e
    | none =>
      .ok ⟨t, a, c, p,
        (b.images.getD []).filterMap (fun v =>
          match v with
          | .str s => some s
          | .nonStr => none)⟩
  | _, _, _, _ => .error "Invalid input"

/-- Outcomes of the photo-insertion loop inside the atomic store
procedure: `none` means every insert succeeds, `some k` means the
insert of the k-th image URL raises. -/
structure RpcOracle where
  propInsertFails : Bool
  photoInsertFailAt : Option Nat
deriving DecidableEq

/-- The atomic store procedure `create_property_with_photos` from
`src/migrations/0002_create_property_with_photos.sql`: inserts the
property row, then one photo row per image URL tagged
`source=property_creation` and referencing the new property.  The
procedure is a single plpgsql function, hence one transaction: any
failure inside it rolls the whole call back, modelled by returning the
error with the state unchanged. -/
def create_property_with_photos (db : DB) (p : ParsedProperty) (owner : String)
    (image_urls : List String) (o : RpcOracle) : Except String (Property × DB) :=
  if o.propInsertFails then .error "Failed to create property"
  else
    match o.photoInsertFailAt with
    | some k =>
      if k < image_urls.length then .error "Failed to create property"
      else create_property_with_photos_ok db p owner image_urls
    | none => create_property_with_photos_ok db p owner image_urls
where
  create_property_with_photos_ok (db : DB) (p : ParsedProperty) (owner : String)
      (image_urls : List String) : Except String (Property × DB) :=
    let newProp : Property :=
      ⟨db.nextPropertyId, owner, p.title, p.address, p.city, p.price, p.images, 0⟩
    let newPhotos : List Photo :=
      image_urls.enum.map (fun e =>
        ⟨db.nextPhotoId + e.1, e.2, e.2, e.2, "property", some owner,
         some newProp.id, "property_creation"⟩)
    .ok (newProp,
      ⟨newProp :: db.properties, newPhotos ++ db.photos,
       db.nextPropertyId + 1, db.nextPhotoId + image_urls.length⟩)

/-- Oracle for `createProperty`: whether the supabase client is
configured, plus the atomic procedure's outcome. -/
structure CreateOracle where
  configured : Bool
  rpc : RpcOracle
deriving DecidableEq

/-- Output of an embedded operation: the result value, the new store,
cache and ownership-cache states, and the effect trace. -/
structure MutOut (α : Type) where
  result : Except String α
  db : DB
  cache : Cache
  own : List (String × Nat)
  trace : List Op

/-- `createProperty` from the property service (`src/unnamed/part_002`
lines 134-176): parse the body; on success invoke the atomic RPC with
the parsed fields plus the owner id and the image list; on RPC error
return the message as a result value; on success invalidate the listing
namespace and return the new record. -/
def createProperty (body : CreateBody) (userId : String) (db : DB) (c : Cache)
    (oc : List (String × Nat)) (o : CreateOracle) : MutOut Property :=
  match safeParse body with
  | .error e => ⟨.error e, db, c, oc, []⟩
  | .ok parsed =>
    if ¬ o.configured then
      ⟨.error "Supabase is not configured", db, c, oc, []⟩
    else
      match create_property_with_photos db parsed userId parsed.images o.rpc with
      | .error e => ⟨.error e, db, c, oc, [.rpcCreate]⟩
      | .ok (prop, db1) =>
        ⟨.ok prop, db1, c.invalidate "properties:", oc,
         [.rpcCreate, .cacheInvalidate "properties:"]⟩

/-- An update patch (optional new values for the embedded columns). -/
structure Patch where
  title : Option String
  address : Option String
  city : Option String
  price : Option String
  images : Option (List String)
deriving DecidableEq

/-- Modelled from the spec: `propertyRepository.updateProperty`
(property repository, not among the given sources) applies the patch to
the stored row.  The row id is unchanged. -/
def applyPatch (p : Property) (patch : Patch) : Property :=
  { p with
    title := patch.title.getD p.title
    address := patch.address.getD p.address
    city := patch.city.getD p.city
    price := patch.price.getD p.price
    images := patch.images.getD p.images }

/-- Outcome of one awaited supabase call: it either resolves with data,
resolves with an error value (the supabase style — never thrown), or
rejects (throws). -/
inductive CallOutcome where
  | ok
  | errVal
  | throws
deriving DecidableEq

/-- Oracle for `updateProperty` / `deleteProperty`: outcomes of the
repository write and of each call of the photo-association block. -/
structure MutOracle where
  configured : Bool
  updateOk : Bool
  deleteOk : Bool
  selThrows : String → Bool
  updOutcome : Nat → CallOutcome
  insertOutcome : CallOutcome

/-- Sets `property_id` of the photo row(s) with the given id. -/
def setPhotoProp (db : DB) (photoId propId : Nat) : DB :=
  { db with
    photos := db.photos.map (fun q =>
      if q.id = photoId then { q with property_id := some propId } else q) }

/-- The new photo row queued by the update path for a URL with no
orphan match (`source=property_update`).  Ids are assigned at insert
time. -/
def updatePhotoRow (nextId : Nat) (url : String) (userId : Option String)
    (propId : Nat) : Photo :=
  ⟨nextId, url, url, url, "property", userId, some propId, "property_update"⟩

/-- The per-URL loop of `updateProperty`'s photo-association block
(`src/unnamed/part_002` lines 210-244): look up an orphan photo with
the URL; on a hit, re-point it (an update that rejects is caught and
queues an insert; an update resolving with an error value is ignored);
on a miss or a thrown lookup, queue an insert row.  Returns the new
store, the queued URLs, and the trace. -/
def assocLoop (id : Nat) (o : MutOracle) (db : DB) :
    List String → DB × List String × List Op
  | [] => (db, [], [])
  | url :: rest =>
    if o.selThrows url then
      let (db', q, t) := assocLoop id o db rest
      (db', url :: q, .photoSelect url :: t)
    else
      match db.photos.find? (fun ph => ph.url == url && ph.property_id == none) with
      | none =>
        let (db', q, t) := assocLoop id o db rest
        (db', url :: q, .photoSelect url :: t)
      | some ex =>
        match o.updOutcome ex.id with
        | .throws =>
          let (db', q, t) := assocLoop id o db rest
          (db', url :: q, .photoSelect url :: .photoUpdate ex.id :: t)
        | .errVal =>
          let (db', q, t) := assocLoop id o db rest
          (db', q, .photoSelect url :: .photoUpdate ex.id :: t)
        | .ok =>
          let (db', q, t) := assocLoop id o (setPhotoProp db ex.id id) rest
          (db', q, .photoSelect url :: .photoUpdate ex.id :: t)

/-- The photo-association block of `updateProperty`
(`src/unnamed/part_002` lines 204-255): runs only when the patch
carries a non-empty image list; a misconfigured client throws into the
outer catch and skips the block; after the loop the queued rows are
batch-inserted — an insert rejecting is caught (rows lost), an insert
resolving with an error value is logged and ignored (rows lost);
either way the failure is non-fatal. -/
def associatePhotos (id : Nat) (images : Option (List String))
    (userId : Option String) (db : DB) (o : MutOracle) : DB × List Op :=
  match images with
  | none => (db, [])
  | some imgs =>
    if imgs.length = 0 then (db, [])
    else if ¬ o.configured then (db, [])
    else
      let (db1, queued, t) := assocLoop id o db imgs
      if queued.length = 0 then (db1, t)
      else
        match o.insertOutcome with
        | .throws => (db1, t)
        | .errVal => (db1, t ++ [.photoInsert queued.length])
        | .ok =>
          let rows := queued.enum.map (fun e =>
            updatePhotoRow (db1.nextPhotoId + e.1) e.2 userId id)
          ({ db1 with
              photos := db1.photos ++ rows,
              nextPhotoId := db1.nextPhotoId + queued.length },
           t ++ [.photoInsert queued.length])

/-- `updateProperty` from the property service (`src/unnamed/part_002`
lines 178-262): store-read for the ownership check (bypassing the
cache), unauthorized/not-found faults before any mutation (the guard
`userId && owner !== userId` fires only for a supplied, non-empty —
truthy — requester), repository update, best-effort photo association,
then the three invalidations. -/
def updateProperty (id : Nat) (patch : Patch) (userId : Option String)
    (db : DB) (c : Cache) (oc : List (String × Nat)) (o : MutOracle) :
    MutOut Property :=
  match findPropertyById db id with
  | none => ⟨.error "Property not found", db, c, oc, [.findById id]⟩
  | some property =>
    if _unauthorized : (∃ u, userId = some u ∧ u ≠ "" ∧ property.owner_id ≠ u) then
      ⟨.error "Unauthorized: You do not own this property", db, c, oc, [.findById id]⟩
    else if ¬ o.updateOk then
      ⟨.error "Failed to update property", db, c, oc, [.findById id, .storeUpdate id]⟩
    else
      let updated := applyPatch property patch
      let db1 := { db with
        properties := db.properties.map (fun p => if p.id = id then updated else p) }
      let (db2, t) := associatePhotos id patch.images userId db1 o
      ⟨.ok updated, db2,
       (c.invalidate (propertyKey id)).invalidate "properties:",
       invalidateOwnershipCache oc "property" id,
       [.findById id, .storeUpdate id] ++ t ++
         [.cacheInvalidate (propertyKey id), .cacheInvalidate "properties:",
          .ownershipInvalidate "property" id]⟩

/-- `deleteProperty` from the property service (`src/unnamed/part_002`
lines 264-285): same ownership enforcement as update (including the
truthiness of `userId &&`); on success the
deletion is delegated to the store (modelled from the spec as removal
of the row, the repository not being among the given sources), then the
same three invalidations. -/
def deleteProperty (id : Nat) (userId : Option String) (db : DB) (c : Cache)
    (oc : List (String × Nat)) (o : MutOracle) : MutOut Unit :=
  match findPropertyById db id with
  | none => ⟨.error "Property not found", db, c, oc, [.findById id]⟩
  | some property =>
    if _unauthorized : (∃ u, userId = some u ∧ u ≠ "" ∧ property.owner_id ≠ u) then
      ⟨.error "Unauthorized: You do not own this property", db, c, oc, [.findById id]⟩
    else if ¬ o.deleteOk then
      ⟨.error "Failed to delete property", db, c, oc, [.findById id, .storeDelete id]⟩
    else
      ⟨.ok (), { db with properties := db.properties.filter (fun p => ¬ p.id = id) },
       (c.invalidate (propertyKey id)).invalidate "properties:",
       invalidateOwnershipCache oc "property" id,
       [.findById id, .storeDelete id, .cacheInvalidate (propertyKey id),
        .cacheInvalidate "properties:", .ownershipInvalidate "property" id]⟩

/-- Modelled from the spec: `propertyRepository.incrementPropertyViews`
(property repository, not among the given sources): best-effort counter
increment against the store; a store failure is swallowed (logged) and
the call completes. -/
def incrementPropertyViews (db : DB) (id : Nat) (incFails : Bool) : DB :=
  if incFails then db
  else
    { db with
      properties := db.properties.map (fun p =>
        if p.id = id then { p with view_count := p.view_count + 1 } else p) }

/-- `recordPropertyView` from the property service
(`src/unnamed/part_002` lines 287-289): awaits the repository
increment and returns. -/
def recordPropertyView (id : Nat) (db : DB) (incFails : Bool) :
    Except String Unit × DB × List Op :=
  (.ok (), incrementPropertyViews db id incFails, [.storeIncrement id])

/-- Outcome of the initial orphan fetch of the reconciliation handler:
resolves with the rows, resolves with an error value (`data` null, the
supabase style), or rejects. -/
inductive FetchOutcome where
  | ok
  | errVal
  | throws
deriving DecidableEq

/-- Oracle for the reconciliation handler: the initial fetch's outcome
and, per photo row id, whether the property lookup throws and how the
photo update resolves. -/
structure RecOracle where
  fetch : FetchOutcome
  rowSelThrows : Nat → Bool
  rowUpdOutcome : Nat → CallOutcome

/-- The property lookup of the reconcile loop: first property whose
image list contains the URL (`.contains("images", [url]).limit(1)`). -/
def matchProp (props : List Property) (url : String) : Option Property :=
  props.find? (fun pr => pr.images.contains url)

/-- The per-row loop of the `reconcile-photos` handler
(`src/unnamed/part_001` lines 110-127): a thrown lookup or update is
caught and the loop continues; a found match whose update resolves
(even with an error value, which the handler never inspects) is pushed
onto the result list; an update that resolves normally also re-points
the photo row. -/
def recLoop (o : RecOracle) (db : DB) : List Photo → DB × List (Nat × Nat)
  | [] => (db, [])
  | ph :: rest =>
    if o.rowSelThrows ph.id then recLoop o db rest
    else
      match matchProp db.properties ph.url with
      | none => recLoop o db rest
      | some pr =>
        match o.rowUpdOutcome ph.id with
        | .throws => recLoop o db rest
        | .errVal =>
          let (db', l) := recLoop o db rest
          (db', (ph.id, pr.id) :: l)
        | .ok =>
          let (db', l) := recLoop o (setPhotoProp db ph.id pr.id) rest
          (db', (ph.id, pr.id) :: l)

/-- The orphan batch fetched by the handler: up to 200 photo rows with
a null property reference. -/
def orphanBatch (db : DB) : List Photo :=
  (db.photos.filter (fun ph => ph.property_id == none)).take 200

/-- The `reconcile-photos` handler (`src/unnamed/part_001` lines
95-134): fetch up to 200 orphans, match each against the properties'
image lists, re-point matches, and return the association list.  The
handler never inspects the fetch's `error` field, so a fetch resolving
with an error value leaves `orphanPhotos` null and the loop runs over
the empty list; only a rejection reaches the catch block (the 500
fault). -/
def reconcileOrphanPhotos (db : DB) (o : RecOracle) :
    Except String (List (Nat × Nat)) × DB :=
  match o.fetch with
  | .throws => (.error "Failed to reconcile photos", db)
  | .errVal => (.ok [], db)
  | .ok =>
    let (db', l) := recLoop o db (orphanBatch db)
    (.ok l, db')

/-- The all-success store behavior for the reconciler. -/
def recAllOk : RecOracle := ⟨.ok, fun _ => false, fun _ => .ok⟩

/-- Concrete example body (the spec's end-to-end example). -/
def exBody : CreateBody :=
  ⟨some "Test Property", some "123 Test Lane", some "Testville", some "1000.00",
   some [.str "https://cdn.example.com/prop/1.jpg",
         .str "https://cdn.example.com/prop/2.jpg"]⟩

/-- The parse of `exBody`. -/
def exParsed : ParsedProperty :=
  ⟨"Test Property", "123 Test Lane", "Testville", "1000.00",
   ["https://cdn.example.com/prop/1.jpg", "https://cdn.example.com/prop/2.jpg"]⟩

/-- Concrete example store: one property owned by `"owner"`. -/
def exDb : DB :=
  ⟨[⟨0, "owner", "T", "A", "C", "100", [], 0⟩], [], 1, 0⟩

/-- An all-success mutation oracle. -/
def mutAllOk : MutOracle := ⟨true, true, true, fun _ => false, fun _ => .ok, .ok⟩

/-- A store with 201 orphan photos all matching the one property:
one more orphan than the reconciler's batch cap. -/
def bigDb : DB :=
  ⟨[⟨0, "o", "T", "A", "C", "1", ["https://u"], 0⟩],
   (List.range 201).map (fun i =>
     ⟨i, "x", "https://u", "https://u", "photo", none, none, "upload"⟩),
   1, 201⟩

/-- A store with a single orphan photo matching the one property. -/
def exRecDb : DB :=
  ⟨[⟨0, "o", "T", "A", "C", "1", ["https://u"], 0⟩],
   [⟨5, "x", "https://u", "https://u", "photo", none, none, "upload"⟩], 1, 6⟩

/-! ## Helper lemmas -/

theorem digitChar_ne_colon : ∀ d, d < 10 → Nat.digitChar d ≠ ':' := by decide

theorem toNat_digitChar : ∀ d, d < 10 → (Nat.digitChar d).toNat = 48 + d := by decide

theorem colon_not_mem_natChars : ∀ fuel n, ':' ∉ natChars fuel n := by
  intro fuel
  induction fuel with
  | zero => intro n h; simp [natChars] at h
  | succ f ih =>
    intro n h
    rw [natChars] at h
    split at h
    · next h10 => exact digitChar_ne_colon n h10 (List.mem_singleton.mp h).symm
    · next h10 =>
      rcases List.mem_append.mp h with h1 | h2
      · exact ih (n / 10) h1
      · exact digitChar_ne_colon (n % 10) (Nat.mod_lt _ (by omega))
          (List.mem_singleton.mp h2).symm

theorem charsVal_append_digit (l : List Char) (c : Char) :
    charsVal (l ++ [c]) = charsVal l * 10 + (c.toNat - 48) := by
  simp [charsVal, List.foldl_append]

theorem charsVal_natChars : ∀ fuel n, n < fuel → charsVal (natChars fuel n) = n := by
  intro fuel
  induction fuel with
  | zero => intro n h; omega
  | succ f ih =>
    intro n h
    rw [natChars]
    split
    · next h10 =>
      simp only [charsVal, List.foldl_cons, List.foldl_nil,
        toNat_digitChar n h10]
      omega
    · next h10 =>
      have hdiv : n / 10 < n := Nat.div_lt_self (by omega) (by omega)
      rw [charsVal_append_digit, ih (n / 10) (by omega),
        toNat_digitChar (n % 10) (Nat.mod_lt _ (by omega))]
      have := Nat.div_add_mod n 10
      omega

theorem natStr_injective {a b : Nat} (h : natStr a = natStr b) : a = b := by
  have hd : natChars (a + 1) a = natChars (b + 1) b := by
    have : (natStr a).data = (natStr b).data := by rw [h]
    simpa [natStr] using this
  have ha := charsVal_natChars (a + 1) a (by omega)
  rw [hd, charsVal_natChars (b + 1) b (by omega)] at ha
  omega

theorem natStr_data (n : Nat) : (natStr n).data = natChars (n + 1) n := rfl

theorem joinKey_data :
    ∀ l : List String, (joinKey l).data = List.intercalate [':'] (l.map String.data)
  | [] => rfl
  | [s] => by simp [joinKey, List.intercalate, List.intersperse]
  | s :: t :: r => by
    have ih := joinKey_data (t :: r)
    show (s ++ ":" ++ joinKey (t :: r)).data = _
    rw [String.data_append, String.data_append, ih]
    simp [List.intercalate, List.intersperse]

theorem joinKey_inj_of_colon_free {l1 l2 : List String}
    (h1 : ∀ s ∈ l1, ':' ∉ s.data) (h2 : ∀ s ∈ l2, ':' ∉ s.data)
    (hn1 : l1 ≠ []) (hn2 : l2 ≠ [])
    (h : joinKey l1 = joinKey l2) : l1 = l2 := by
  have hd : (joinKey l1).data = (joinKey l2).data := by rw [h]
  rw [joinKey_data, joinKey_data] at hd
  have e1 := @List.splitOn_intercalate Char (l1.map String.data) _ ':'
    (by
      intro l hl
      rcases List.mem_map.mp hl with ⟨s, hs, rfl⟩
      exact h1 s hs)
    (by simpa using hn1)
  have e2 := @List.splitOn_intercalate Char (l2.map String.data) _ ':'
    (by
      intro l hl
      rcases List.mem_map.mp hl with ⟨s, hs, rfl⟩
      exact h2 s hs)
    (by simpa using hn2)
  have hmaps : l1.map String.data = l2.map String.data := by
    rw [← e1, ← e2, hd]
  exact List.map_injective_iff.mpr (fun a b hab => String.ext hab) hmaps

theorem ceil_div_bounds (t l : Nat) (hl : 1 ≤ l) :
    t ≤ l * ((t + l - 1) / l) ∧ l * ((t + l - 1) / l) < t + l := by
  rw [Nat.mul_comm l ((t + l - 1) / l)]
  constructor
  · by_contra hcon
    push_neg at hcon
    have hmul : ((t + l - 1) / l + 1) * l ≤ t + l - 1 := by
      have h0 : ((t + l - 1) / l) * l ≤ t + l - 1 := Nat.div_mul_le_self _ _
      rw [Nat.add_mul, Nat.one_mul]
      omega
    have := (Nat.le_div_iff_mul_le (by omega : 0 < l)).mpr hmul
    omega
  · have h0 : ((t + l - 1) / l) * l ≤ t + l - 1 := Nat.div_mul_le_self _ _
    omega

theorem assocLoop_cons_sel (id : Nat) (o : MutOracle) (db : DB) (url : String)
    (rest : List String) (hsel : o.selThrows url = true) :
    assocLoop id o db (url :: rest) =
      ((assocLoop id o db rest).1, url :: (assocLoop id o db rest).2.1,
        .photoSelect url :: (assocLoop id o db rest).2.2) := by
  rcases hE : assocLoop id o db rest with ⟨db1, q, t⟩
  simp [assocLoop, hsel, hE]

theorem assocLoop_cons_none (id : Nat) (o : MutOracle) (db : DB) (url : String)
    (rest : List String) (hsel : o.selThrows url = false)
    (hfind : db.photos.find? (fun ph => ph.url == url && ph.property_id == none) = none) :
    assocLoop id o db (url :: rest) =
      ((assocLoop id o db rest).1, url :: (assocLoop id o db rest).2.1,
        .photoSelect url :: (assocLoop id o db rest).2.2) := by
  rcases hE : assocLoop id o db rest with ⟨db1, q, t⟩
  simp [assocLoop, hsel, hfind, hE]

theorem assocLoop_cons_throws (id : Nat) (o : MutOracle) (db : DB) (url : String)
    (rest : List String) (ex : Photo) (hsel : o.selThrows url = false)
    (hfind : db.photos.find? (fun ph => ph.url == url && ph.property_id == none) = some ex)
    (hupd : o.updOutcome ex.id = .throws) :
    assocLoop id o db (url :: rest) =
      ((assocLoop id o db rest).1, url :: (assocLoop id o db rest).2.1,
        .photoSelect url :: .photoUpdate ex.id :: (assocLoop id o db rest).2.2) := by
  rcases hE : assocLoop id o db rest with ⟨db1, q, t⟩
  simp [assocLoop, hsel, hfind, hupd, hE]

theorem assocLoop_cons_errVal (id : Nat) (o : MutOracle) (db : DB) (url : String)
    (rest : List String) (ex : Photo) (hsel : o.selThrows url = false)
    (hfind : db.photos.find? (fun ph => ph.url == url && ph.property_id == none) = some ex)
    (hupd : o.updOutcome ex.id = .errVal) :
    assocLoop id o db (url :: rest) =
      ((assocLoop id o db rest).1, (assocLoop id o db rest).2.1,
        .photoSelect url :: .photoUpdate ex.id :: (assocLoop id o db rest).2.2) := by
  rcases hE : assocLoop id o db rest with ⟨db1, q, t⟩
  simp [assocLoop, hsel, hfind, hupd, hE]

theorem assocLoop_cons_ok (id : Nat) (o : MutOracle) (db : DB) (url : String)
    (rest : List String) (ex : Photo) (hsel : o.selThrows url = false)
    (hfind : db.photos.find? (fun ph => ph.url == url && ph.property_id == none) = some ex)
    (hupd : o.updOutcome ex.id = .ok) :
    assocLoop id o db (url :: rest) =
      ((assocLoop id o (setPhotoProp db ex.id id) rest).1,
        (assocLoop id o (setPhotoProp db ex.id id) rest).2.1,
        .photoSelect url :: .photoUpdate ex.id ::
          (assocLoop id o (setPhotoProp db ex.id id) rest).2.2) := by
  rcases hE : assocLoop id o (setPhotoProp db ex.id id) rest with ⟨db1, q, t⟩
  simp [assocLoop, hsel, hfind, hupd, hE]

theorem assocLoop_properties (id : Nat) (o : MutOracle) :
    ∀ (imgs : List String) (db : DB),
      (assocLoop id o db imgs).1.properties = db.properties := by
  intro imgs
  induction imgs with
  | nil => intro db; rfl
  | cons url rest ih =>
    intro db
    cases hsel : o.selThrows url with
    | true => rw [assocLoop_cons_sel id o db url rest hsel]; exact ih db
    | false =>
      cases hfind : db.photos.find?
          (fun ph => ph.url == url && ph.property_id == none) with
      | none => rw [assocLoop_cons_none id o db url rest hsel hfind]; exact ih db
      | some ex =>
        cases hupd : o.updOutcome ex.id with
        | throws =>
          rw [assocLoop_cons_throws id o db url rest ex hsel hfind hupd]
          exact ih db
        | errVal =>
          rw [assocLoop_cons_errVal id o db url rest ex hsel hfind hupd]
          exact ih db
        | ok =>
          rw [assocLoop_cons_ok id o db url rest ex hsel hfind hupd]
          exact ih (setPhotoProp db ex.id id)

theorem assocLoop_no_invalidation (id : Nat) (o : MutOracle) :
    ∀ (imgs : List String) (db : DB),
      ∀ op ∈ (assocLoop id o db imgs).2.2, op.isInvalidation = false := by
  intro imgs
  induction imgs with
  | nil => intro db op hop; simp [assocLoop] at hop
  | cons url rest ih =>
    intro db op hop
    cases hsel : o.selThrows url with
    | true =>
      rw [assocLoop_cons_sel id o db url rest hsel] at hop
      rcases List.mem_cons.mp hop with rfl | hop2
      · rfl
      · exact ih db op hop2
    | false =>
      cases hfind : db.photos.find?
          (fun ph => ph.url == url && ph.property_id == none) with
      | none =>
        rw [assocLoop_cons_none id o db url rest hsel hfind] at hop
        rcases List.mem_cons.mp hop with rfl | hop2
        · rfl
        · exact ih db op hop2
      | some ex =>
        cases hupd : o.updOutcome ex.id with
        | throws =>
          rw [assocLoop_cons_throws id o db url rest ex hsel hfind hupd] at hop
          rcases List.mem_cons.mp hop with rfl | hop2
          · rfl
          · rcases List.mem_cons.mp hop2 with rfl | hop3
            · rfl
            · exact ih db op hop3
        | errVal =>
          rw [assocLoop_cons_errVal id o db url rest ex hsel hfind hupd] at hop
          rcases List.mem_cons.mp hop with rfl | hop2
          · rfl
          · rcases List.mem_cons.mp hop2 with rfl | hop3
            · rfl
            · exact ih db op hop3
        | ok =>
          rw [assocLoop_cons_ok id o db url rest ex hsel hfind hupd] at hop
          rcases List.mem_cons.mp hop with rfl | hop2
          · rfl
          · rcases List.mem_cons.mp hop2 with rfl | hop3
            · rfl
            · exact ih (setPhotoProp db ex.id id) op hop3

theorem associatePhotos_properties (id : Nat) (images : Option (List String))
    (userId : Option String) (db : DB) (o : MutOracle) :
    (associatePhotos id images userId db o).1.properties = db.properties := by
  rcases images with _ | imgs
  · rfl
  · simp only [associatePhotos]
    rcases hE : assocLoop id o db imgs with ⟨db1, queued, t⟩
    have hp0 := assocLoop_properties id o imgs db
    rw [hE] at hp0
    have hp : db1.properties = db.properties := hp0
    split
    · rfl
    · split
      · rfl
      · split
        · exact hp
        · split
          · exact hp
          · exact hp
          · exact hp

theorem associatePhotos_no_invalidation (id : Nat) (images : Option (List String))
    (userId : Option String) (db : DB) (o : MutOracle) :
    ∀ op ∈ (associatePhotos id images userId db o).2, op.isInvalidation = false := by
  rcases images with _ | imgs
  · intro op hop; simp [associatePhotos] at hop
  · simp only [associatePhotos]
    rcases hE : assocLoop id o db imgs with ⟨db1, queued, t⟩
    have ht0 := assocLoop_no_invalidation id o imgs db
    rw [hE] at ht0
    have ht : ∀ op ∈ t, op.isInvalidation = false := ht0
    split
    · intro op hop; simp at hop
    · split
      · intro op hop; simp at hop
      · split
        · exact fun op hop => ht op hop
        · split
          · exact fun op hop => ht op hop
          · intro op hop
            rcases List.mem_append.mp hop with h1 | h2
            · exact ht op h1
            · rw [List.mem_singleton.mp h2]; rfl
          · intro op hop
            rcases List.mem_append.mp hop with h1 | h2
            · exact ht op h1
            · rw [List.mem_singleton.mp h2]; rfl

theorem no_unauthorized_of_auth (userId : Option String) (pr : Property)
    (hauth : userId = none ∨ userId = some pr.owner_id) :
    ¬ ∃ v, userId = some v ∧ v ≠ "" ∧ pr.owner_id ≠ v := by
  rintro ⟨v, hv, _, hne⟩
  rcases hauth with h | h
  · rw [h] at hv
    exact Option.noConfusion hv
  · rw [h] at hv
    exact hne (Option.some.inj hv)

theorem updateProperty_success (id : Nat) (patch : Patch) (userId : Option String)
    (db : DB) (c : Cache) (oc : List (String × Nat)) (o : MutOracle) (pr : Property)
    (hfind : findPropertyById db id = some pr)
    (hauth : userId = none ∨ userId = some pr.owner_id)
    (hupd : o.updateOk = true) :
    updateProperty id patch userId db c oc o =
      ⟨.ok (applyPatch pr patch),
       (associatePhotos id patch.images userId
          { db with properties :=
              (db.properties.map
                (fun p => if p.id = id then applyPatch pr patch else p)) } o).1,
       (c.invalidate (propertyKey id)).invalidate "properties:",
       invalidateOwnershipCache oc "property" id,
       [.findById id, .storeUpdate id] ++
         (associatePhotos id patch.images userId
            { db with properties :=
                (db.properties.map
                  (fun p => if p.id = id then applyPatch pr patch else p)) } o).2 ++
         [.cacheInvalidate (propertyKey id), .cacheInvalidate "properties:",
          .ownershipInvalidate "property" id]⟩ := by
  have hcond := no_unauthorized_of_auth userId pr hauth
  simp only [updateProperty, hfind]
  rw [dif_neg hcond]
  rw [if_neg (by simp [hupd])]

theorem deleteProperty_success (id : Nat) (userId : Option String)
    (db : DB) (c : Cache) (oc : List (String × Nat)) (o : MutOracle) (pr : Property)
    (hfind : findPropertyById db id = some pr)
    (hauth : userId = none ∨ userId = some pr.owner_id)
    (hdel : o.deleteOk = true) :
    deleteProperty id userId db c oc o =
      ⟨.ok (), { db with properties := db.properties.filter (fun p => ¬ p.id = id) },
       (c.invalidate (propertyKey id)).invalidate "properties:",
       invalidateOwnershipCache oc "property" id,
       [.findById id, .storeDelete id, .cacheInvalidate (propertyKey id),
        .cacheInvalidate "properties:", .ownershipInvalidate "property" id]⟩ := by
  have hcond := no_unauthorized_of_auth userId pr hauth
  simp only [deleteProperty, hfind]
  rw [dif_neg hcond]
  rw [if_neg (by simp [hdel])]

theorem find?_map_replace (l : List Property) (id : Nat) (updated : Property)
    (hid : updated.id = id) :
    ∀ pr, l.find? (fun p => p.id == id) = some pr →
      (l.map (fun p => if p.id = id then updated else p)).find?
        (fun p => p.id == id) = some updated := by
  induction l with
  | nil => intro pr h; simp at h
  | cons x rest ih =>
    intro pr h
    by_cases hx : x.id = id
    · simp [List.find?, hx, hid]
    · rw [List.find?_cons_of_neg _ (by simpa using hx)] at h
      simp only [List.map_cons, if_neg hx]
      rw [List.find?_cons_of_neg _ (by simpa using hx)]
      exact ih pr h

theorem recLoop_cons_sel (o : RecOracle) (db : DB) (ph : Photo) (rest : List Photo)
    (hsel : o.rowSelThrows ph.id = true) :
    recLoop o db (ph :: rest) = recLoop o db rest := by
  simp [recLoop, hsel]

theorem recLoop_cons_nomatch (o : RecOracle) (db : DB) (ph : Photo)
    (rest : List Photo) (hsel : o.rowSelThrows ph.id = false)
    (hm : matchProp db.properties ph.url = none) :
    recLoop o db (ph :: rest) = recLoop o db rest := by
  simp [recLoop, hsel, hm]

theorem recLoop_cons_updthrows (o : RecOracle) (db : DB) (ph : Photo)
    (rest : List Photo) (pr : Property) (hsel : o.rowSelThrows ph.id = false)
    (hm : matchProp db.properties ph.url = some pr)
    (hupd : o.rowUpdOutcome ph.id = .throws) :
    recLoop o db (ph :: rest) = recLoop o db rest := by
  simp [recLoop, hsel, hm, hupd]

theorem recLoop_cons_errVal (o : RecOracle) (db : DB) (ph : Photo)
    (rest : List Photo) (pr : Property) (hsel : o.rowSelThrows ph.id = false)
    (hm : matchProp db.properties ph.url = some pr)
    (hupd : o.rowUpdOutcome ph.id = .errVal) :
    recLoop o db (ph :: rest) =
      ((recLoop o db rest).1, (ph.id, pr.id) :: (recLoop o db rest).2) := by
  rcases hE : recLoop o db rest with ⟨db1, l⟩
  simp [recLoop, hsel, hm, hupd, hE]

theorem recLoop_cons_ok (o : RecOracle) (db : DB) (ph : Photo)
    (rest : List Photo) (pr : Property) (hsel : o.rowSelThrows ph.id = false)
    (hm : matchProp db.properties ph.url = some pr)
    (hupd : o.rowUpdOutcome ph.id = .ok) :
    recLoop o db (ph :: rest) =
      ((recLoop o (setPhotoProp db ph.id pr.id) rest).1,
        (ph.id, pr.id) :: (recLoop o (setPhotoProp db ph.id pr.id) rest).2) := by
  rcases hE : recLoop o (setPhotoProp db ph.id pr.id) rest with ⟨db1, l⟩
  simp [recLoop, hsel, hm, hupd, hE]

theorem recLoop_properties (o : RecOracle) :
    ∀ (rows : List Photo) (db : DB),
      (recLoop o db rows).1.properties = db.properties := by
  intro rows
  induction rows with
  | nil => intro db; rfl
  | cons ph rest ih =>
    intro db
    cases hsel : o.rowSelThrows ph.id with
    | true => rw [recLoop_cons_sel o db ph rest hsel]; exact ih db
    | false =>
      cases hm : matchProp db.properties ph.url with
      | none => rw [recLoop_cons_nomatch o db ph rest hsel hm]; exact ih db
      | some pr =>
        cases hupd : o.rowUpdOutcome ph.id with
        | throws =>
          rw [recLoop_cons_updthrows o db ph rest pr hsel hm hupd]; exact ih db
        | errVal =>
          rw [recLoop_cons_errVal o db ph rest pr hsel hm hupd]; exact ih db
        | ok =>
          rw [recLoop_cons_ok o db ph rest pr hsel hm hupd]
          exact ih (setPhotoProp db ph.id pr.id)

theorem recLoop_mem (o : RecOracle) :
    ∀ (rows : List Photo) (db : DB) (ph : Photo) (pr : Property),
      ph ∈ rows → o.rowSelThrows ph.id = false →
      matchProp db.properties ph.url = some pr →
      o.rowUpdOutcome ph.id ≠ .throws →
      (ph.id, pr.id) ∈ (recLoop o db rows).2 := by
  intro rows
  induction rows with
  | nil => intro db ph pr hmem; simp at hmem
  | cons hd rest ih =>
    intro db ph pr hmem hsel hm hupd
    rcases List.mem_cons.mp hmem with rfl | hmem2
    · cases hupdc : o.rowUpdOutcome ph.id with
      | throws => exact absurd hupdc hupd
      | errVal =>
        rw [recLoop_cons_errVal o db ph rest pr hsel hm hupdc]
        exact List.mem_cons_self _ _
      | ok =>
        rw [recLoop_cons_ok o db ph rest pr hsel hm hupdc]
        exact List.mem_cons_self _ _
    · cases hselh : o.rowSelThrows hd.id with
      | true =>
        rw [recLoop_cons_sel o db hd rest hselh]
        exact ih db ph pr hmem2 hsel hm hupd
      | false =>
        cases hmh : matchProp db.properties hd.url with
        | none =>
          rw [recLoop_cons_nomatch o db hd rest hselh hmh]
          exact ih db ph pr hmem2 hsel hm hupd
        | some prh =>
          cases hupdh : o.rowUpdOutcome hd.id with
          | throws =>
            rw [recLoop_cons_updthrows o db hd rest prh hselh hmh hupdh]
            exact ih db ph pr hmem2 hsel hm hupd
          | errVal =>
            rw [recLoop_cons_errVal o db hd rest prh hselh hmh hupdh]
            exact List.mem_cons_of_mem _ (ih db ph pr hmem2 hsel hm hupd)
          | ok =>
            rw [recLoop_cons_ok o db hd rest prh hselh hmh hupdh]
            refine List.mem_cons_of_mem _ ?_
            have hprops : (setPhotoProp db hd.id prh.id).properties =
                db.properties := rfl
            exact ih (setPhotoProp db hd.id prh.id) ph pr hmem2 hsel
              (by rw [hprops]; exact hm) hupd

theorem recLoop_orphan_after :
    ∀ (rows : List Photo) (db : DB) (q : Photo),
      q ∈ (recLoop recAllOk db rows).1.photos → q.property_id = none →
      q ∈ db.photos ∧
        ∀ ph ∈ rows, ph.id = q.id → matchProp db.properties ph.url = none := by
  intro rows
  induction rows with
  | nil =>
    intro db q hq horph
    exact ⟨hq, by intro ph hph; simp at hph⟩
  | cons hd rest ih =>
    intro db q hq horph
    have hsel : recAllOk.rowSelThrows hd.id = false := rfl
    cases hm : matchProp db.properties hd.url with
    | none =>
      rw [recLoop_cons_nomatch recAllOk db hd rest hsel hm] at hq
      obtain ⟨hq1, hq2⟩ := ih db q hq horph
      refine ⟨hq1, ?_⟩
      intro ph hph hid
      rcases List.mem_cons.mp hph with rfl | hph2
      · exact hm
      · exact hq2 ph hph2 hid
    | some pr =>
      have hupd : recAllOk.rowUpdOutcome hd.id = .ok := rfl
      rw [recLoop_cons_ok recAllOk db hd rest pr hsel hm hupd] at hq
      have hq' : q ∈ (recLoop recAllOk (setPhotoProp db hd.id pr.id) rest).1.photos := hq
      obtain ⟨hq1, hq2⟩ := ih (setPhotoProp db hd.id pr.id) q hq' horph
      -- q is an untouched row of the updated store
      have hq1' : q ∈ db.photos ∧ q.id ≠ hd.id := by
        simp only [setPhotoProp] at hq1
        rcases List.mem_map.mp hq1 with ⟨q0, hq0, hq0eq⟩
        by_cases hqid : q0.id = hd.id
        · rw [if_pos hqid] at hq0eq
          rw [← hq0eq] at horph
          simp at horph
        · rw [if_neg hqid] at hq0eq
          subst hq0eq
          exact ⟨hq0, hqid⟩
      refine ⟨hq1'.1, ?_⟩
      intro ph hph hid
      rcases List.mem_cons.mp hph with rfl | hph2
      · exact absurd hid hq1'.2.symm
      · have := hq2 ph hph2 hid
        simpa [setPhotoProp] using this

theorem recLoop_no_match :
    ∀ (rows : List Photo) (db : DB),
      (∀ ph ∈ rows, matchProp db.properties ph.url = none) →
      recLoop recAllOk db rows = (db, []) := by
  intro rows
  induction rows with
  | nil => intro db _; rfl
  | cons hd rest ih =>
    intro db hnone
    have hsel : recAllOk.rowSelThrows hd.id = false := rfl
    rw [recLoop_cons_nomatch recAllOk db hd rest hsel (hnone hd (by simp))]
    exact ih db (fun ph hph => hnone ph (by simp [hph]))

theorem recLoop_ids_sublist (o : RecOracle) :
    ∀ (rows : List Photo) (db : DB),
      List.Sublist ((recLoop o db rows).2.map Prod.fst) (rows.map Photo.id) := by
  intro rows
  induction rows with
  | nil => intro db; simp [recLoop]
  | cons hd rest ih =>
    intro db
    cases hsel : o.rowSelThrows hd.id with
    | true =>
      rw [recLoop_cons_sel o db hd rest hsel]
      exact (ih db).cons _
    | false =>
      cases hm : matchProp db.properties hd.url with
      | none =>
        rw [recLoop_cons_nomatch o db hd rest hsel hm]
        exact (ih db).cons _
      | some pr =>
        cases hupd : o.rowUpdOutcome hd.id with
        | throws =>
          rw [recLoop_cons_updthrows o db hd rest pr hsel hm hupd]
          exact (ih db).cons _
        | errVal =>
          rw [recLoop_cons_errVal o db hd rest pr hsel hm hupd]
          simpa using (ih db).cons₂ hd.id
        | ok =>
          rw [recLoop_cons_ok o db hd rest pr hsel hm hupd]
          simpa using (ih (setPhotoProp db hd.id pr.id)).cons₂ hd.id

theorem get_after_invalidate (c : Cache) (key t2 : String) (now : Nat) :
    ((c.invalidate key).invalidate t2).get key now =
      (none, (c.invalidate key).invalidate t2) := by
  unfold Cache.get
  have hfind : ((c.invalidate key).invalidate t2).entries.find?
      (fun e => e.1 == key) = none := by
    apply List.find?_eq_none.mpr
    intro e he
    have h1 : e ∈ (c.invalidate key).entries := by
      have := List.mem_filter.mp he
      exact this.1
    have h2 := List.mem_filter.mp h1
    have h3 := h2.2
    simp only [decide_eq_true_eq, Bool.or_eq_true, not_or] at h3
    simp only [beq_iff_eq]
    intro hcontra
    exact h3.1 (by simpa using hcontra)
  rw [hfind]

/-! ## Claim theorems -/

/-- C8: for every input params, `getProperties` clamps `page` to at
least 1 and `limit` into [1,100], and computes pagination from the
store's total row count as `totalPages = ceil(total/limit)` (stated
both as the code's formula and as the characterizing bounds),
`hasNextPage = (page < totalPages)`, `hasPrevPage = (page > 1)`.
Stated on the store-computing path (the cache lookup misses). -/
theorem getProperties_pagination (params : GetPropertiesParams) (c : Cache)
    (now : Nat) (store : List Property × Nat)
    (hmiss : (c.get (listCacheKey params) now).1 = none) :
    let r := (getProperties params c now store).1
    1 ≤ r.pagination.page ∧
    1 ≤ r.pagination.limit ∧ r.pagination.limit ≤ 100 ∧
    r.pagination.page = clampPage params.page ∧
    r.pagination.limit = clampLimit params.limit ∧
    r.pagination.total = store.2 ∧
    r.pagination.totalPages =
      (r.pagination.total + r.pagination.limit - 1) / r.pagination.limit ∧
    r.pagination.total ≤ r.pagination.limit * r.pagination.totalPages ∧
    r.pagination.limit * r.pagination.totalPages <
      r.pagination.total + r.pagination.limit ∧
    (r.pagination.hasNextPage = true ↔ r.pagination.page < r.pagination.totalPages) ∧
    (r.pagination.hasPrevPage = true ↔ 1 < r.pagination.page) := by
  intro r
  have hpage : 1 ≤ clampPage params.page := by
    have := le_max_left (1 : Int) (jsOr params.page 1)
    unfold clampPage
    omega
  have hlim1 : 1 ≤ clampLimit params.limit := by
    have h1 := le_max_left (1 : Int) (jsOr params.limit 20)
    have h2 : (1 : Int) ≤ min 100 (max 1 (jsOr params.limit 20)) :=
      le_min (by norm_num) h1
    unfold clampLimit
    omega
  have hlim2 : clampLimit params.limit ≤ 100 := by
    have := min_le_left (100 : Int) (max 1 (jsOr params.limit 20))
    unfold clampLimit
    omega
  have hr : r = ⟨store.1,
      ⟨clampPage params.page, clampLimit params.limit, store.2,
        (store.2 + clampLimit params.limit - 1) / clampLimit params.limit,
        decide (clampPage params.page <
          (store.2 + clampLimit params.limit - 1) / clampLimit params.limit),
        decide (1 < clampPage params.page)⟩⟩ := by
    show (getProperties params c now store).1 = _
    simp only [getProperties]
    rcases hg : c.get (listCacheKey params) now with ⟨ov, c1⟩
    rw [hg] at hmiss
    simp at hmiss
    subst hmiss
    simp
  rw [hr]
  refine ⟨hpage, hlim1, hlim2, rfl, rfl, rfl, rfl, ?_, ?_, by simp, by simp⟩
  · show store.2 ≤ clampLimit params.limit *
      ((store.2 + clampLimit params.limit - 1) / clampLimit params.limit)
    exact (ceil_div_bounds store.2 (clampLimit params.limit) hlim1).1
  · show clampLimit params.limit *
      ((store.2 + clampLimit params.limit - 1) / clampLimit params.limit) <
      store.2 + clampLimit params.limit
    exact (ceil_div_bounds store.2 (clampLimit params.limit) hlim1).2

/-- Witness for C8 at a concrete input: empty cache, stored total 7,
page "2", limit "3". -/
theorem getProperties_pagination_witness :
    ((⟨[]⟩ : Cache).get
        (listCacheKey ⟨none, some "A", none, none, none, none, some 2, some 3⟩) 0).1
        = none ∧
    (let r := (getProperties
        ⟨none, some "A", none, none, none, none, some 2, some 3⟩ ⟨[]⟩ 0 ([], 7)).1
     1 ≤ r.pagination.page ∧
     1 ≤ r.pagination.limit ∧ r.pagination.limit ≤ 100 ∧
     r.pagination.page = clampPage (some 2) ∧
     r.pagination.limit = clampLimit (some 3) ∧
     r.pagination.total = 7 ∧
     r.pagination.totalPages =
       (r.pagination.total + r.pagination.limit - 1) / r.pagination.limit ∧
     r.pagination.total ≤ r.pagination.limit * r.pagination.totalPages ∧
     r.pagination.limit * r.pagination.totalPages <
       r.pagination.total + r.pagination.limit ∧
     (r.pagination.hasNextPage = true ↔ r.pagination.page < r.pagination.totalPages) ∧
     (r.pagination.hasPrevPage = true ↔ 1 < r.pagination.page)) :=
  ⟨by decide,
   getProperties_pagination ⟨none, some "A", none, none, none, none, some 2, some 3⟩
     ⟨[]⟩ 0 ([], 7) (by decide)⟩

/-- C4 counterexample: the cache key joins the filter dimensions with
`":"` without escaping, so a filter value containing a colon collides
with a different tuple: `{city:":"}` and `{minPrice:":"}` have
different filter tuples but identical cache keys — the claimed
injectivity fails at this input. -/
theorem getProperties_cache_key_collision :
    listCacheKey ⟨none, some ":", none, none, none, none, none, none⟩ =
      listCacheKey ⟨none, none, some ":", none, none, none, none, none⟩ ∧
    filterTuple ⟨none, some ":", none, none, none, none, none, none⟩ ≠
      filterTuple ⟨none, none, some ":", none, none, none, none, none⟩ := by
  refine ⟨by decide, ?_⟩
  intro h
  simp [filterTuple] at h

/-- C4 (amended): the `getProperties` cache key is injective over
filter tuples whose string-valued dimensions contain no `":"`
character (the key's separator): for two calls with colon-free filter
strings, equal cache keys imply equal (propertyType, city, minPrice,
maxPrice, defaulted status, ownerId, clamped page, clamped limit)
tuples.  Unrestricted injectivity fails, see the collision theorem. -/
theorem getProperties_cache_key_injective (p1 p2 : GetPropertiesParams)
    (h1 : ∀ s ∈ [p1.propertyType.getD "", p1.city.getD "", p1.minPrice.getD "",
      p1.maxPrice.getD "", p1.status.getD "active", p1.ownerId.getD ""],
      ':' ∉ s.data)
    (h2 : ∀ s ∈ [p2.propertyType.getD "", p2.city.getD "", p2.minPrice.getD "",
      p2.maxPrice.getD "", p2.status.getD "active", p2.ownerId.getD ""],
      ':' ∉ s.data)
    (h : listCacheKey p1 = listCacheKey p2) : filterTuple p1 = filterTuple p2 := by
  have hparts : cacheKeyParts p1 = cacheKeyParts p2 := by
    apply joinKey_inj_of_colon_free ?_ ?_ (by simp [cacheKeyParts])
      (by simp [cacheKeyParts]) h
    · intro s hs
      simp only [cacheKeyParts, List.mem_cons, List.not_mem_nil, or_false] at hs
      rcases hs with rfl | rfl | rfl | rfl | rfl | rfl | rfl | rfl | rfl
      · decide
      · exact h1 _ (by simp)
      · exact h1 _ (by simp)
      · exact h1 _ (by simp)
      · exact h1 _ (by simp)
      · exact h1 _ (by simp)
      · exact h1 _ (by simp)
      · exact colon_not_mem_natChars _ _
      · exact colon_not_mem_natChars _ _
    · intro s hs
      simp only [cacheKeyParts, List.mem_cons, List.not_mem_nil, or_false] at hs
      rcases hs with rfl | rfl | rfl | rfl | rfl | rfl | rfl | rfl | rfl
      · decide
      · exact h2 _ (by simp)
      · exact h2 _ (by simp)
      · exact h2 _ (by simp)
      · exact h2 _ (by simp)
      · exact h2 _ (by simp)
      · exact h2 _ (by simp)
      · exact colon_not_mem_natChars _ _
      · exact colon_not_mem_natChars _ _
  simp only [cacheKeyParts, List.cons.injEq, and_true] at hparts
  obtain ⟨-, e1, e2, e3, e4, e5, e6, e7, e8⟩ := hparts
  simp only [filterTuple, Prod.mk.injEq]
  exact ⟨e1, e2, e3, e4, e5, e6, natStr_injective e7, natStr_injective e8⟩

/-- Witness for C4 at a concrete input: colon-free filters. -/
theorem getProperties_cache_key_injective_witness :
    (∀ s ∈ [(some "house").getD "", (some "A").getD "", (none : Option String).getD "",
      (none : Option String).getD "", (none : Option String).getD "active",
      (none : Option String).getD ""], ':' ∉ s.data) ∧
    filterTuple ⟨some "house", some "A", none, none, none, none, some 2, some 50⟩ =
      filterTuple ⟨some "house", some "A", none, none, none, none, some 2, some 50⟩ :=
  ⟨by decide,
   getProperties_cache_key_injective
     ⟨some "house", some "A", none, none, none, none, some 2, some 50⟩
     ⟨some "house", some "A", none, none, none, none, some 2, some 50⟩
     (by decide) (by decide) rfl⟩

/-- C2: for every body whose image list violates the image-URL
contract (more than 25 entries, a non-string entry, a data-URI entry,
or an entry that is not an absolute http/https URL), `createProperty`
returns a validation error as a result value before any store access:
the store, cache and ownership-cache states are unchanged and the
effect trace is empty. -/
theorem createProperty_validates_before_store (body : CreateBody) (userId : String)
    (db : DB) (c : Cache) (oc : List (String × Nat)) (o : CreateOracle)
    (imgs : List ImgVal) (himgs : body.images = some imgs)
    (hviol : imgs.length > 25 ∨
      ∃ v ∈ imgs, v = .nonStr ∨
        ∃ s, v = .str s ∧ (strStartsWith s "data:" = true ∨
          ¬ (strStartsWith s "http://" = true ∨ strStartsWith s "https://" = true))) :
    (∃ e, (createProperty body userId db c oc o).result = .error e) ∧
    (createProperty body userId db c oc o).db = db ∧
    (createProperty body userId db c oc o).cache = c ∧
    (createProperty body userId db c oc o).own = oc ∧
    (createProperty body userId db c oc o).trace = [] := by
  have hval : ∃ e, validateImageUrls body.images = some e := by
    rw [himgs]
    unfold validateImageUrls
    by_cases hlen : imgs.length > 25
    · simp [hlen]
    · rcases hviol with h | ⟨v, hv, hbad⟩
      · exact absurd h hlen
      · simp only [hlen, if_false, if_neg hlen]
        rcases hfs : imgs.findSome? imgEntryError with _ | e
        · exfalso
          have hnone := List.findSome?_eq_none_iff.mp hfs v hv
          rcases hbad with rfl | ⟨s, rfl, hb⟩
          · simp [imgEntryError] at hnone
          · by_cases hd : strStartsWith s "data:"
            · simp [imgEntryError, hd] at hnone
            · rcases hb with hdata | hhttp
              · exact absurd hdata hd
              · push_neg at hhttp
                have h1 : strStartsWith s "http://" = false :=
                  Bool.eq_false_iff.mpr (fun hx => hhttp.1 hx)
                have h2 : strStartsWith s "https://" = false :=
                  Bool.eq_false_iff.mpr (fun hx => hhttp.2 hx)
                simp [imgEntryError, hd, h1, h2] at hnone
        · exact ⟨e, rfl⟩
  have hparse : ∃ e, safeParse body = .error e := by
    obtain ⟨e, he⟩ := hval
    cases ht : body.title <;> cases ha : body.address <;> cases hc : body.city <;>
      cases hp : body.price <;> simp [safeParse, ht, ha, hc, hp, he]
  obtain ⟨e, he⟩ := hparse
  simp [createProperty, he]

/-- Witness for C2 at a concrete input: a single non-http image URL. -/
theorem createProperty_validates_before_store_witness :
    ((⟨some "T", some "A", some "C", some "1000",
        some [.str "ftp://x"]⟩ : CreateBody).images = some [.str "ftp://x"]) ∧
    (let out := createProperty
        ⟨some "T", some "A", some "C", some "1000", some [.str "ftp://x"]⟩
        "user_abc" ⟨[], [], 0, 0⟩ ⟨[]⟩ [] ⟨true, false, none⟩
     (∃ e, out.result = .error e) ∧ out.db = ⟨[], [], 0, 0⟩ ∧
       out.cache = ⟨[]⟩ ∧ out.own = [] ∧ out.trace = []) :=
  ⟨rfl,
   createProperty_validates_before_store
     ⟨some "T", some "A", some "C", some "1000", some [.str "ftp://x"]⟩
     "user_abc" ⟨[], [], 0, 0⟩ ⟨[]⟩ [] ⟨true, false, none⟩ [.str "ftp://x"] rfl
     (Or.inr ⟨.str "ftp://x", by simp, Or.inr ⟨"ftp://x", rfl, Or.inr (by decide)⟩⟩)⟩

/-- C1: `createProperty` is all-or-nothing.  If the photo-insertion
part of the delegated atomic procedure fails partway through, the store
is unchanged afterwards: no row carries the would-be property id and no
photo row references it.  On success, the new property row exists and
the photo rows referencing it are exactly one per image URL, tagged
`source=property_creation`. -/
theorem createProperty_atomic (body : CreateBody) (userId : String) (db : DB)
    (c : Cache) (oc : List (String × Nat)) (o : CreateOracle)
    (parsed : ParsedProperty) (hparse : safeParse body = .ok parsed)
    (hcfg : o.configured = true) (hprop : o.rpc.propInsertFails = false)
    (hwf : db.WF) :
    (∀ k, o.rpc.photoInsertFailAt = some k → k < parsed.images.length →
      (∃ e, (createProperty body userId db c oc o).result = .error e) ∧
      (createProperty body userId db c oc o).db = db ∧
      (∀ pr ∈ (createProperty body userId db c oc o).db.properties,
        pr.id ≠ db.nextPropertyId) ∧
      (∀ q ∈ (createProperty body userId db c oc o).db.photos,
        q.property_id ≠ some db.nextPropertyId)) ∧
    (o.rpc.photoInsertFailAt = none →
      ∃ newProp, (createProperty body userId db c oc o).result = .ok newProp ∧
        newProp ∈ (createProperty body userId db c oc o).db.properties ∧
        newProp.owner_id = userId ∧
        (((createProperty body userId db c oc o).db.photos.filter
            (fun q => q.property_id == some newProp.id)).map
          (fun q => (q.url, q.source))) =
          parsed.images.map (fun u => (u, "property_creation"))) := by
  obtain ⟨hwf1, hwf2, hwf3, hwf4, hwf5⟩ := hwf
  constructor
  · intro k hk hklen
    have hrpc : create_property_with_photos db parsed userId parsed.images o.rpc =
        .error "Failed to create property" := by
      unfold create_property_with_photos
      rw [hprop, hk]
      simp [hklen]
    have hout : createProperty body userId db c oc o =
        ⟨.error "Failed to create property", db, c, oc, [.rpcCreate]⟩ := by
      unfold createProperty
      rw [hparse, hcfg]
      simp [hrpc]
    rw [hout]
    refine ⟨⟨_, rfl⟩, rfl, ?_, ?_⟩
    · intro pr hpr
      exact Nat.ne_of_lt (hwf1 pr hpr)
    · intro q hq hcontra
      exact Nat.ne_of_lt (hwf5 q hq _ hcontra) rfl
  · intro hk
    have hrpc : create_property_with_photos db parsed userId parsed.images o.rpc =
        .ok (⟨db.nextPropertyId, userId, parsed.title, parsed.address, parsed.city,
              parsed.price, parsed.images, 0⟩,
          ⟨⟨db.nextPropertyId, userId, parsed.title, parsed.address, parsed.city,
              parsed.price, parsed.images, 0⟩ :: db.properties,
            (parsed.images.enum.map (fun e =>
              ⟨db.nextPhotoId + e.1, e.2, e.2, e.2, "property", some userId,
               some db.nextPropertyId, "property_creation"⟩)) ++ db.photos,
            db.nextPropertyId + 1, db.nextPhotoId + parsed.images.length⟩) := by
      unfold create_property_with_photos
      rw [hprop, hk]
      rfl
    have hout : createProperty body userId db c oc o =
        ⟨.ok ⟨db.nextPropertyId, userId, parsed.title, parsed.address, parsed.city,
              parsed.price, parsed.images, 0⟩,
          ⟨⟨db.nextPropertyId, userId, parsed.title, parsed.address, parsed.city,
              parsed.price, parsed.images, 0⟩ :: db.properties,
            (parsed.images.enum.map (fun e =>
              ⟨db.nextPhotoId + e.1, e.2, e.2, e.2, "property", some userId,
               some db.nextPropertyId, "property_creation"⟩)) ++ db.photos,
            db.nextPropertyId + 1, db.nextPhotoId + parsed.images.length⟩,
          c.invalidate "properties:", oc,
          [.rpcCreate, .cacheInvalidate "properties:"]⟩ := by
      unfold createProperty
      rw [hparse, hcfg]
      simp [hrpc]
    rw [hout]
    refine ⟨_, rfl, List.mem_cons_self _ _, rfl, ?_⟩
    show ((parsed.images.enum.map (fun e =>
        (⟨db.nextPhotoId + e.1, e.2, e.2, e.2, "property", some userId,
          some db.nextPropertyId, "property_creation"⟩ : Photo)) ++ db.photos).filter
        (fun q => q.property_id == some db.nextPropertyId)).map
        (fun q => (q.url, q.source)) = _
    rw [List.filter_append]
    have hnew : (parsed.images.enum.map (fun e =>
        (⟨db.nextPhotoId + e.1, e.2, e.2, e.2, "property", some userId,
          some db.nextPropertyId, "property_creation"⟩ : Photo))).filter
        (fun q => q.property_id == some db.nextPropertyId) =
        parsed.images.enum.map (fun e =>
          (⟨db.nextPhotoId + e.1, e.2, e.2, e.2, "property", some userId,
            some db.nextPropertyId, "property_creation"⟩ : Photo)) := by
      apply List.filter_eq_self.mpr
      intro q hq
      rcases List.mem_map.mp hq with ⟨e, _, rfl⟩
      simp
    have hold : db.photos.filter
        (fun q => q.property_id == some db.nextPropertyId) = [] := by
      apply List.filter_eq_nil_iff.mpr
      intro q hq
      simp only [beq_iff_eq]
      intro hcontra
      exact Nat.ne_of_lt (hwf5 q hq _ hcontra) rfl
    rw [hnew, hold, List.append_nil, List.map_map]
    calc parsed.images.enum.map ((fun q : Photo => (q.url, q.source)) ∘ (fun e =>
          (⟨db.nextPhotoId + e.1, e.2, e.2, e.2, "property", some userId,
            some db.nextPropertyId, "property_creation"⟩ : Photo)))
        = (parsed.images.enum.map Prod.snd).map (fun u => (u, "property_creation")) := by
          rw [List.map_map]; rfl
      _ = parsed.images.map (fun u => (u, "property_creation")) := by
          rw [List.enum_map_snd]

/-- Witness for C1 at the spec's end-to-end example: failing the second
photo insert leaves the store unchanged; succeeding creates the
property plus one `property_creation` photo row per URL. -/
theorem createProperty_atomic_witness :
    safeParse exBody = .ok exParsed ∧
    DB.WF ⟨[], [], 5, 9⟩ ∧
    (createProperty exBody "user_abc" ⟨[], [], 5, 9⟩ ⟨[]⟩ [] ⟨true, false, some 1⟩).db =
      ⟨[], [], 5, 9⟩ ∧
    (∃ newProp,
      (createProperty exBody "user_abc" ⟨[], [], 5, 9⟩ ⟨[]⟩ []
          ⟨true, false, none⟩).result = .ok newProp ∧
      newProp ∈ (createProperty exBody "user_abc" ⟨[], [], 5, 9⟩ ⟨[]⟩ []
          ⟨true, false, none⟩).db.properties ∧
      newProp.owner_id = "user_abc" ∧
      (((createProperty exBody "user_abc" ⟨[], [], 5, 9⟩ ⟨[]⟩ []
            ⟨true, false, none⟩).db.photos.filter
          (fun q => q.property_id == some newProp.id)).map
        (fun q => (q.url, q.source))) =
        exParsed.images.map (fun u => (u, "property_creation"))) :=
  ⟨rfl, by decide,
   ((createProperty_atomic exBody "user_abc" ⟨[], [], 5, 9⟩ ⟨[]⟩ []
       ⟨true, false, some 1⟩ exParsed rfl rfl rfl (by decide)).1
     1 rfl (by decide)).2.1,
   (createProperty_atomic exBody "user_abc" ⟨[], [], 5, 9⟩ ⟨[]⟩ []
       ⟨true, false, none⟩ exParsed rfl rfl rfl (by decide)).2 rfl⟩

/-- C3 counterexample: the source guard is `if (userId &&
property.owner_id !== userId)`, and an empty string is falsy in
JavaScript, so a supplied empty-string requester — which differs from
the stored owner — bypasses the ownership check entirely: the update
succeeds, the store's update path runs (the trace holds `storeUpdate`),
and the delete removes the row, refuting the claim as stated. -/
theorem empty_requester_bypasses_ownership :
    (⟨0, "owner", "T", "A", "C", "100", [], 0⟩ : Property).owner_id ≠ "" ∧
    (updateProperty 0 ⟨none, none, some "X", none, none⟩ (some "") exDb ⟨[]⟩ []
        mutAllOk).result = .ok ⟨0, "owner", "T", "A", "X", "100", [], 0⟩ ∧
    (updateProperty 0 ⟨none, none, some "X", none, none⟩ (some "") exDb ⟨[]⟩ []
        mutAllOk).trace =
      [.findById 0, .storeUpdate 0, .cacheInvalidate (propertyKey 0),
       .cacheInvalidate "properties:", .ownershipInvalidate "property" 0] ∧
    (deleteProperty 0 (some "") exDb ⟨[]⟩ [] mutAllOk).result = .ok () ∧
    (deleteProperty 0 (some "") exDb ⟨[]⟩ [] mutAllOk).db.properties = [] :=
  ⟨by decide, rfl, by decide, rfl, by decide⟩

/-- C3 (amended): for a stored property and a supplied **non-empty**
requester different from the stored owner, `updateProperty` and
`deleteProperty` fail with the Unauthorized fault and perform no
mutation: store, cache and ownership cache are unchanged and the trace
holds only the ownership-check read — the store's update/delete paths
are never invoked and no invalidation happens.  (The source's
truthiness guard `userId && …` lets an empty-string requester through,
see the counterexample.) -/
theorem unauthorized_mutation_blocked (id : Nat) (patch : Patch) (u : String)
    (db : DB) (c : Cache) (oc : List (String × Nat)) (o : MutOracle) (pr : Property)
    (hfind : findPropertyById db id = some pr) (hnempty : u ≠ "")
    (hown : pr.owner_id ≠ u) :
    (updateProperty id patch (some u) db c oc o).result =
      .error "Unauthorized: You do not own this property" ∧
    (updateProperty id patch (some u) db c oc o).db = db ∧
    (updateProperty id patch (some u) db c oc o).cache = c ∧
    (updateProperty id patch (some u) db c oc o).own = oc ∧
    (updateProperty id patch (some u) db c oc o).trace = [.findById id] ∧
    (deleteProperty id (some u) db c oc o).result =
      .error "Unauthorized: You do not own this property" ∧
    (deleteProperty id (some u) db c oc o).db = db ∧
    (deleteProperty id (some u) db c oc o).cache = c ∧
    (deleteProperty id (some u) db c oc o).own = oc ∧
    (deleteProperty id (some u) db c oc o).trace = [.findById id] := by
  have hcond : ∃ v, (some u : Option String) = some v ∧ v ≠ "" ∧ pr.owner_id ≠ v :=
    ⟨u, rfl, hnempty, hown⟩
  have hu : updateProperty id patch (some u) db c oc o =
      ⟨.error "Unauthorized: You do not own this property", db, c, oc,
        [.findById id]⟩ := by
    simp only [updateProperty, hfind]
    split
    · rfl
    · next hneg => exact absurd hcond hneg
  have hd : deleteProperty id (some u) db c oc o =
      ⟨.error "Unauthorized: You do not own this property", db, c, oc,
        [.findById id]⟩ := by
    simp only [deleteProperty, hfind]
    split
    · rfl
    · next hneg => exact absurd hcond hneg
  rw [hu, hd]
  exact ⟨rfl, rfl, rfl, rfl, rfl, rfl, rfl, rfl, rfl, rfl⟩

/-- Witness for C3 at a concrete input: requester `"mallory"` on a
property owned by `"owner"`. -/
theorem unauthorized_mutation_blocked_witness :
    findPropertyById exDb 0 = some ⟨0, "owner", "T", "A", "C", "100", [], 0⟩ ∧
    (⟨0, "owner", "T", "A", "C", "100", [], 0⟩ : Property).owner_id ≠ "mallory" ∧
    (updateProperty 0 ⟨none, none, none, none, none⟩ (some "mallory") exDb ⟨[]⟩ []
        mutAllOk).result = .error "Unauthorized: You do not own this property" ∧
    (updateProperty 0 ⟨none, none, none, none, none⟩ (some "mallory") exDb ⟨[]⟩ []
        mutAllOk).trace = [.findById 0] ∧
    (deleteProperty 0 (some "mallory") exDb ⟨[]⟩ [] mutAllOk).result =
      .error "Unauthorized: You do not own this property" :=
  ⟨by decide, by decide,
   (unauthorized_mutation_blocked 0 ⟨none, none, none, none, none⟩ "mallory" exDb
      ⟨[]⟩ [] mutAllOk ⟨0, "owner", "T", "A", "C", "100", [], 0⟩ (by decide)
      (by decide) (by decide)).1,
   (unauthorized_mutation_blocked 0 ⟨none, none, none, none, none⟩ "mallory" exDb
      ⟨[]⟩ [] mutAllOk ⟨0, "owner", "T", "A", "C", "100", [], 0⟩ (by decide)
      (by decide) (by decide)).2.2.2.2.1,
   (unauthorized_mutation_blocked 0 ⟨none, none, none, none, none⟩ "mallory" exDb
      ⟨[]⟩ [] mutAllOk ⟨0, "owner", "T", "A", "C", "100", [], 0⟩ (by decide)
      (by decide) (by decide)).2.2.2.2.2.1⟩

/-- C9: `recordPropertyView` never propagates a failure: for every id
and store state it completes normally (`ok ()`), and when the
store-side increment fails the failure is swallowed and the store is
simply left unchanged.  The repository increment is modelled from the
spec (best-effort, failure swallowed), the repository module not being
among the given sources. -/
theorem recordPropertyView_never_fails (id : Nat) (db : DB) (incFails : Bool) :
    (recordPropertyView id db incFails).1 = .ok () ∧
    (recordPropertyView id db true).2.1 = db := by
  exact ⟨rfl, by simp [recordPropertyView, incrementPropertyViews]⟩

/-- C10: `getPropertyById` never caches absence: for an id absent from
the store and not currently cached, the call returns the absent value,
leaves the cache exactly unchanged (no entry written), and reads the
store; a second identical call therefore reads the store again. -/
theorem getPropertyById_not_found_no_cache (id : Nat) (db : DB) (c : Cache)
    (now : Nat) (habsent : findPropertyById db id = none)
    (hnokey : ∀ e ∈ c.entries, e.1 ≠ propertyKey id) :
    (getPropertyById id db c now).1 = none ∧
    (getPropertyById id db c now).2.1 = c ∧
    (getPropertyById id db c now).2.2 = [.findById id] ∧
    (getPropertyById id db (getPropertyById id db c now).2.1 now).2.2 =
      [.findById id] := by
  have hget : c.get (propertyKey id) now = (none, c) := by
    unfold Cache.get
    have : c.entries.find? (fun e => e.1 == propertyKey id) = none := by
      apply List.find?_eq_none.mpr
      intro e he
      simpa using hnokey e he
    rw [this]
  have hout : getPropertyById id db c now = (none, c, [.findById id]) := by
    unfold getPropertyById
    rw [hget, habsent]
  rw [hout]
  exact ⟨rfl, rfl, rfl, by rw [hout]⟩

/-- Witness for C10 at a concrete input: id 7 absent from `exDb`,
empty cache. -/
theorem getPropertyById_not_found_no_cache_witness :
    findPropertyById exDb 7 = none ∧
    (getPropertyById 7 exDb ⟨[]⟩ 3).1 = none ∧
    (getPropertyById 7 exDb ⟨[]⟩ 3).2.1 = ⟨[]⟩ ∧
    (getPropertyById 7 exDb ⟨[]⟩ 3).2.2 = [.findById 7] :=
  ⟨by decide,
   (getPropertyById_not_found_no_cache 7 exDb ⟨[]⟩ 3 (by decide) (by decide)).1,
   (getPropertyById_not_found_no_cache 7 exDb ⟨[]⟩ 3 (by decide) (by decide)).2.1,
   (getPropertyById_not_found_no_cache 7 exDb ⟨[]⟩ 3 (by decide) (by decide)).2.2.1⟩

/-- C5: after every successful `updateProperty(id, …)` and successful
`deleteProperty(id, …)`, the invalidations performed are exactly three,
in order: the single-entry key `property:<id>`, the listing namespace
`properties:`, and the ownership-cache entry for (property, id).
Consequently a `getPropertyById(id)` issued after the update misses the
cache, reads the store, and returns the updated record rather than any
pre-update cached value. -/
theorem mutation_invalidations (id : Nat) (patch : Patch) (userId : Option String)
    (db : DB) (c : Cache) (oc : List (String × Nat)) (o : MutOracle) (pr : Property)
    (now : Nat)
    (hfind : findPropertyById db id = some pr)
    (hauth : userId = none ∨ userId = some pr.owner_id)
    (hupd : o.updateOk = true) (hdel : o.deleteOk = true) :
    (updateProperty id patch userId db c oc o).result = .ok (applyPatch pr patch) ∧
    (updateProperty id patch userId db c oc o).trace.filter Op.isInvalidation =
      [.cacheInvalidate (propertyKey id), .cacheInvalidate "properties:",
       .ownershipInvalidate "property" id] ∧
    (deleteProperty id userId db c oc o).result = .ok () ∧
    (deleteProperty id userId db c oc o).trace.filter Op.isInvalidation =
      [.cacheInvalidate (propertyKey id), .cacheInvalidate "properties:",
       .ownershipInvalidate "property" id] ∧
    (getPropertyById id (updateProperty id patch userId db c oc o).db
        (updateProperty id patch userId db c oc o).cache now).1 =
      some (applyPatch pr patch) ∧
    (getPropertyById id (updateProperty id patch userId db c oc o).db
        (updateProperty id patch userId db c oc o).cache now).2.2 =
      [.findById id] := by
  have hshape := updateProperty_success id patch userId db c oc o pr hfind hauth hupd
  have hdshape := deleteProperty_success id userId db c oc o pr hfind hauth hdel
  have hpr_id : pr.id = id := by
    have := List.find?_some hfind
    simpa using this
  have hup_id : (applyPatch pr patch).id = id := by
    simpa [applyPatch] using hpr_id
  have hfilt : (updateProperty id patch userId db c oc o).trace.filter
      Op.isInvalidation =
      [.cacheInvalidate (propertyKey id), .cacheInvalidate "properties:",
       .ownershipInvalidate "property" id] := by
    rw [hshape]
    show ([Op.findById id, Op.storeUpdate id] ++
        (associatePhotos id patch.images userId
          { db with properties :=
              (db.properties.map
                (fun p => if p.id = id then applyPatch pr patch else p)) } o).2 ++
        [Op.cacheInvalidate (propertyKey id), Op.cacheInvalidate "properties:",
         Op.ownershipInvalidate "property" id]).filter Op.isInvalidation = _
    rw [List.filter_append, List.filter_append]
    have h2 : ((associatePhotos id patch.images userId
        { db with properties :=
            (db.properties.map
              (fun p => if p.id = id then applyPatch pr patch else p)) } o).2).filter
        Op.isInvalidation = [] := by
      apply List.filter_eq_nil_iff.mpr
      intro op hop
      simp [associatePhotos_no_invalidation _ _ _ _ _ op hop]
    rw [h2]
    rfl
  have hdfilt : (deleteProperty id userId db c oc o).trace.filter
      Op.isInvalidation =
      [.cacheInvalidate (propertyKey id), .cacheInvalidate "properties:",
       .ownershipInvalidate "property" id] := by
    rw [hdshape]
    rfl
  have hdb2 : (updateProperty id patch userId db c oc o).db.properties =
      db.properties.map (fun p => if p.id = id then applyPatch pr patch else p) := by
    rw [hshape]
    exact associatePhotos_properties id patch.images userId _ o
  have hfind2 : findPropertyById (updateProperty id patch userId db c oc o).db id =
      some (applyPatch pr patch) := by
    show ((updateProperty id patch userId db c oc o).db.properties).find?
        (fun p => p.id == id) = some (applyPatch pr patch)
    rw [hdb2]
    exact find?_map_replace db.properties id (applyPatch pr patch) hup_id pr hfind
  have hcacheu : (updateProperty id patch userId db c oc o).cache =
      (c.invalidate (propertyKey id)).invalidate "properties:" := by
    rw [hshape]
  have hget : getPropertyById id (updateProperty id patch userId db c oc o).db
      (updateProperty id patch userId db c oc o).cache now =
      (some (applyPatch pr patch),
       (((c.invalidate (propertyKey id)).invalidate "properties:").set
          (propertyKey id) (.detail (applyPatch pr patch)) PROPERTY_DETAIL_TTL now),
       [.findById id]) := by
    simp only [getPropertyById, hcacheu, get_after_invalidate, hfind2]
  refine ⟨by rw [hshape], hfilt, by rw [hdshape], hdfilt, by rw [hget], by rw [hget]⟩

/-- Witness for C5 at a concrete input: the owner updates the city of
property 0 in `exDb`. -/
theorem mutation_invalidations_witness :
    findPropertyById exDb 0 = some ⟨0, "owner", "T", "A", "C", "100", [], 0⟩ ∧
    (updateProperty 0 ⟨none, none, some "Newtown", none, none⟩ (some "owner") exDb
        ⟨[]⟩ [] mutAllOk).trace.filter Op.isInvalidation =
      [.cacheInvalidate (propertyKey 0), .cacheInvalidate "properties:",
       .ownershipInvalidate "property" 0] ∧
    (deleteProperty 0 (some "owner") exDb ⟨[]⟩ [] mutAllOk).trace.filter
        Op.isInvalidation =
      [.cacheInvalidate (propertyKey 0), .cacheInvalidate "properties:",
       .ownershipInvalidate "property" 0] ∧
    (getPropertyById 0
        (updateProperty 0 ⟨none, none, some "Newtown", none, none⟩ (some "owner")
          exDb ⟨[]⟩ [] mutAllOk).db
        (updateProperty 0 ⟨none, none, some "Newtown", none, none⟩ (some "owner")
          exDb ⟨[]⟩ [] mutAllOk).cache 3).1 =
      some (applyPatch ⟨0, "owner", "T", "A", "C", "100", [], 0⟩
        ⟨none, none, some "Newtown", none, none⟩) :=
  ⟨by decide,
   (mutation_invalidations 0 ⟨none, none, some "Newtown", none, none⟩ (some "owner")
      exDb ⟨[]⟩ [] mutAllOk ⟨0, "owner", "T", "A", "C", "100", [], 0⟩ 3 (by decide)
      (Or.inr rfl) rfl rfl).2.1,
   (mutation_invalidations 0 ⟨none, none, some "Newtown", none, none⟩ (some "owner")
      exDb ⟨[]⟩ [] mutAllOk ⟨0, "owner", "T", "A", "C", "100", [], 0⟩ 3 (by decide)
      (Or.inr rfl) rfl rfl).2.2.2.1,
   (mutation_invalidations 0 ⟨none, none, some "Newtown", none, none⟩ (some "owner")
      exDb ⟨[]⟩ [] mutAllOk ⟨0, "owner", "T", "A", "C", "100", [], 0⟩ 3 (by decide)
      (Or.inr rfl) rfl rfl).2.2.2.2.1⟩

/-- C6 counterexample: the handler never inspects the orphan fetch's
`error` field, so an initial fetch that fails by resolving with an
error value (data null) is not surfaced as a fault: on a store holding
a reconcilable orphan, the run returns success with the empty list,
while the same store with a working fetch reconciles the orphan —
refuting "returns a fault if and only if the initial orphan-fetch step
fails". -/
theorem reconcile_fetch_error_not_fault :
    (reconcileOrphanPhotos exRecDb ⟨.errVal, fun _ => false, fun _ => .ok⟩).1 =
      .ok [] ∧
    (reconcileOrphanPhotos exRecDb recAllOk).1 = .ok [(5, 0)] :=
  ⟨rfl, rfl⟩

/-- C6 (amended): per-row failure isolation holds, and the operation
returns a fault exactly when the initial orphan fetch throws; an
initial fetch failing by resolving with an error value is not surfaced
— the handler returns success with the empty list.  A row whose own
lookup does not throw, whose URL matches a property, and whose update
does not throw contributes its association to the returned list
regardless of any other row's outcome. -/
theorem reconcile_fault_iff_fetch_throws (db : DB) (o : RecOracle) :
    ((∃ e, (reconcileOrphanPhotos db o).1 = .error e) ↔ o.fetch = .throws) ∧
    (o.fetch = .errVal → reconcileOrphanPhotos db o = (.ok [], db)) ∧
    (o.fetch = .ok → ∀ ph ∈ orphanBatch db, ∀ pr : Property,
      o.rowSelThrows ph.id = false → matchProp db.properties ph.url = some pr →
      o.rowUpdOutcome ph.id ≠ .throws →
      ∃ l, (reconcileOrphanPhotos db o).1 = .ok l ∧ (ph.id, pr.id) ∈ l) := by
  refine ⟨⟨?_, ?_⟩, ?_, ?_⟩
  · rintro ⟨e, he⟩
    cases hf : o.fetch with
    | ok =>
      rcases hE : recLoop o db (orphanBatch db) with ⟨db1, l⟩
      simp [reconcileOrphanPhotos, hE, hf] at he
    | errVal =>
      simp [reconcileOrphanPhotos, hf] at he
    | throws => rfl
  · intro hf
    exact ⟨"Failed to reconcile photos", by simp [reconcileOrphanPhotos, hf]⟩
  · intro hf
    simp [reconcileOrphanPhotos, hf]
  · intro hf ph hph pr hsel hm hupd
    rcases hE : recLoop o db (orphanBatch db) with ⟨db1, l⟩
    refine ⟨l, by simp [reconcileOrphanPhotos, hf, hE], ?_⟩
    have := recLoop_mem o (orphanBatch db) db ph pr hph hsel hm hupd
    rw [hE] at this
    exact this

/-- Witness for C6 at a concrete input: the one orphan of `exRecDb`
appears in the result when everything succeeds. -/
theorem reconcile_fault_iff_fetch_throws_witness :
    ((⟨5, "x", "https://u", "https://u", "photo", none, none, "upload"⟩ : Photo) ∈
      orphanBatch exRecDb) ∧
    (∃ l, (reconcileOrphanPhotos exRecDb recAllOk).1 = .ok l ∧ (5, 0) ∈ l) :=
  ⟨by decide,
   (reconcile_fault_iff_fetch_throws exRecDb recAllOk).2.2 rfl
     ⟨5, "x", "https://u", "https://u", "photo", none, none, "upload"⟩ (by decide)
     ⟨0, "o", "T", "A", "C", "1", ["https://u"], 0⟩ rfl (by decide) (by decide)⟩

/-- C7 counterexample: with 201 orphans (one more than the 200-row
batch cap) all matching the one property, the first sweep only
processes 200 of them; the second sweep — with no new orphans created
in between — still associates the remaining photo, returning
`[(200, 0)]` rather than the empty list. -/
theorem reconcile_second_run_nonempty :
    (reconcileOrphanPhotos (reconcileOrphanPhotos bigDb recAllOk).2 recAllOk).1 =
      .ok [(200, 0)] ∧
    ((.ok [(200, 0)] : Except String (List (Nat × Nat))) ≠ .ok []) :=
  ⟨rfl, by simp⟩

/-- C7 (amended): the reconciliation sweep is idempotent provided the
orphan set fits in one batch: with at most 200 orphan rows (the fetch
cap), all store calls succeeding, and a well-formed store, a second
sweep run with no new orphans in between returns the empty association
list, and the first run's list names each photo at most once (no
duplicate association). -/
theorem reconcile_idempotent (db : DB) (hwf : db.WF)
    (hcount : (db.photos.filter (fun ph => ph.property_id == none)).length ≤ 200) :
    (reconcileOrphanPhotos (reconcileOrphanPhotos db recAllOk).2 recAllOk).1 =
      .ok [] ∧
    (∀ l, (reconcileOrphanPhotos db recAllOk).1 = .ok l →
      (l.map Prod.fst).Nodup) := by
  obtain ⟨hwf1, hwf2, hwf3, hwf4, hwf5⟩ := hwf
  have hbatch : orphanBatch db =
      db.photos.filter (fun ph => ph.property_id == none) := by
    unfold orphanBatch
    exact List.take_of_length_le hcount
  rcases hE1 : recLoop recAllOk db (orphanBatch db) with ⟨db1, l1⟩
  have hrun1 : reconcileOrphanPhotos db recAllOk = (.ok l1, db1) := by
    simp [reconcileOrphanPhotos, show recAllOk.fetch = .ok from rfl, hE1]
  have hprops1 : db1.properties = db.properties := by
    have := recLoop_properties recAllOk (orphanBatch db) db
    rw [hE1] at this
    exact this
  constructor
  · rw [hrun1]
    show (reconcileOrphanPhotos db1 recAllOk).1 = .ok []
    have hnomatch : ∀ ph ∈ orphanBatch db1,
        matchProp db1.properties ph.url = none := by
      intro ph hph
      have h1 := List.mem_of_mem_take hph
      have h2 := List.mem_filter.mp h1
      have horphstate : ph.property_id = none := by simpa using h2.2
      have hmem : ph ∈ (recLoop recAllOk db (orphanBatch db)).1.photos := by
        rw [hE1]
        exact h2.1
      obtain ⟨hmemdb, hall⟩ :=
        recLoop_orphan_after (orphanBatch db) db ph hmem horphstate
      have hino : ph ∈ orphanBatch db := by
        rw [hbatch]
        exact List.mem_filter.mpr ⟨hmemdb, by simp [horphstate]⟩
      rw [hprops1]
      exact hall ph hino rfl
    have hloop2 := recLoop_no_match (orphanBatch db1) db1 hnomatch
    simp [reconcileOrphanPhotos, show recAllOk.fetch = .ok from rfl, hloop2]
  · intro l hl
    rw [hrun1] at hl
    have hl1 : l1 = l := Except.ok.inj hl
    subst hl1
    have hsub := recLoop_ids_sublist recAllOk (orphanBatch db) db
    rw [hE1] at hsub
    have hsub2 : List.Sublist ((orphanBatch db).map Photo.id)
        (db.photos.map Photo.id) := by
      rw [hbatch]
      exact (List.filter_sublist _).map _
    exact hwf4.sublist (List.Sublist.trans hsub hsub2)

/-- Witness for C7 at a concrete input: `exRecDb` has one orphan. -/
theorem reconcile_idempotent_witness :
    DB.WF exRecDb ∧
    ((exRecDb.photos.filter (fun ph => ph.property_id == none)).length ≤ 200) ∧
    (reconcileOrphanPhotos (reconcileOrphanPhotos exRecDb recAllOk).2 recAllOk).1 =
      .ok [] :=
  ⟨by decide, by decide,
   (reconcile_idempotent exRecDb (by decide) (by decide)).1⟩

end Newstack
